import Mathlib

/-!
# Go-Tool: connection pipeline (`tcpserver/conn.go`) and bulk runner (`BulkRunTool/Call.go`)

A shallow embedding of the Go code.  Goroutines become program counters inside one
state record, and every scheduling decision (which goroutine moves, which ready
`select` case is taken, what the environment answers) is an explicit `Choice`.
Calls into the external `Handle`, `Logger`, `Packet` and `net.Conn` values are
recorded, in order, in a trace of events.

Go's `select` picks one of its ready cases at random, so each case is a choice of its
own, possible exactly when the case is ready.  A `time.After` case may be ready at any
time, and so may the deadline of a `context.WithTimeout`: the model does not measure
time.  A goroutine started by `fnProxy` or `readPacket` is a job with a phase; the
statement that starts it and the run of its function are separate transitions.
-/

/-! ## Go channels -/

/-- Go channel value: the nil channel, or a made channel with a capacity, the
buffered elements (oldest first) and the closed flag. -/
structure Chan (α : Type) where
  isNil : Bool
  cap : Nat
  buf : List α
  closed : Bool
deriving DecidableEq

/-- Zero value of a channel variable. -/
def Chan.nil {α : Type} : Chan α := ⟨true, 0, [], false⟩

/-- Result of `make(chan T, n)`. -/
def Chan.make {α : Type} (n : Nat) : Chan α := ⟨false, n, [], false⟩

/-- Outcome of trying a send case `ch <- x` without a waiting receiver. -/
inductive SendResult (α : Type) where
  | blocked
  | panic
  | sent (ch : Chan α)
deriving DecidableEq

/-- Outcome of trying a receive case `x, ok := <-ch`. -/
inductive RecvResult (α : Type) where
  | blocked
  | got (x : α) (ok : Bool) (ch : Chan α)
deriving DecidableEq

/-- Send on a channel: blocks on nil or when the buffer is full, panics when closed. -/
def Chan.trySend {α : Type} (ch : Chan α) (x : α) : SendResult α :=
  if ch.isNil then .blocked
  else if ch.closed then .panic
  else if ch.buf.length < ch.cap then .sent { ch with buf := ch.buf ++ [x] }
  else .blocked

/-- Receive from a channel: buffered elements first (also after close); a closed and
drained channel yields the zero value with `ok = false`. -/
def Chan.tryRecv {α : Type} [Inhabited α] (ch : Chan α) : RecvResult α :=
  if ch.isNil then .blocked
  else
    match ch.buf with
    | x :: rest => .got x true { ch with buf := rest }
    | [] => if ch.closed then .got default false ch else .blocked

/-- Builtin `close(ch)`; `none` is the run-time panic (nil or already closed channel). -/
def Chan.close {α : Type} (ch : Chan α) : Option (Chan α) :=
  if ch.isNil || ch.closed then none else some { ch with closed := true }

/-- An unbuffered hand-off is possible: made, open, nothing buffered and no room. -/
def Chan.handoffReady {α : Type} (ch : Chan α) : Bool :=
  !ch.isNil && !ch.closed && ch.buf.isEmpty && ch.cap == 0

namespace tcpserver

/-! ## Data model -/

/-- A `time.Time` instant, counted from the zero value of the type. -/
abbrev Time := Nat

/-- Modelled from the spec: the `Packet` interface declaration is not part of the
sources at hand; `conn.go` only compares a packet with nil, passes it on and calls
its `Serialize`.  `none` is the nil interface value, `some k` the packet number `k`. -/
abbrev Packet := Option Nat

/-- Modelled from the spec: the `TimeOutState` declaration is not part of the
sources at hand; the three constants are the ones `conn.go` passes to `OnTimeOut`
(the spec's Timeout Kind, Receive / Send / Dispatch). -/
inductive TimeOutState where
  | RecvTimeOut
  | SendTimeOut
  | HandTimeOut
deriving DecidableEq

/-- Modelled from the spec: the `ConnState` declaration is not part of the sources
at hand; the fields are the four that `NewConn` and `Close` use (activity time,
remote address, terminal message, completion time). -/
structure ConnState where
  ActiveTime : Time
  RemoteAddr : String
  Message : String
  ComplateTime : Time
deriving DecidableEq

/-- Modelled from the spec: the `ConnOption` declaration is not part of the sources
at hand; the fields are the numeric ones `conn.go` reads.  `Handle` and `Logger`
are external: calls to them are recorded as events. -/
structure ConnOption where
  MaxRecvChanCount : Nat
  MaxSendChanCount : Nat
  RecvTimeOut : Nat
  SendTimeOut : Nat
  HandTimeOut : Nat
deriving DecidableEq

/-- Observable actions, in the order in which they happen: the calls of the five
`Handle` methods and of `Packet.Serialize`, the transport's `Read`, `Write` and `Close`,
`c.cancel()`, the logger (`Errorf` stands for `Errorf` and `Error`, with the format
string, or `err` for a logged error value), the three sends `result <- p` (receive
stage), `c.handChan <- p` (orchestrator), `c.sendChan <- packet` (`Send`), and the
three `close` calls on the queues. -/
inductive Event where
  | OnConnection
  | OnMessage (p : Packet)
  | OnClose (state : ConnState)
  | OnTimeOut (code : TimeOutState)
  | ReadPacket
  | Serialize (p : Packet)
  | connRead
  | connWrite (p : Packet)
  | connClose
  | cancel
  | Errorf (msg : String)
  | Debugf (msg : String)
  | recvSend (p : Packet)
  | handSend (p : Packet)
  | sendSend (p : Packet)
  | closeRecv
  | closeHand
  | closeSend
deriving DecidableEq

/-- State of a goroutine started by `fnProxy`: not started, started with `fn()` still
to run, or `fn()` done and the completion signal sent. -/
inductive ProxyPhase where
  | none
  | launched
  | finished
deriving DecidableEq

/-- State of a goroutine started by `readPacket`: started, inside
`Handle.ReadPacket`, blocked in `result <- p`, done with `result` closed, or returned at
the first `ctx.Done()` check (where `result` is left open). -/
inductive Reader where
  | launched
  | decoding
  | offering (p : Packet)
  | closed
  | returned
deriving DecidableEq

/-- Proxy goroutine of the dispatch stage running `OnMessage(c, p)`. -/
structure HandJob where
  packet : Packet
  phase : ProxyPhase
deriving DecidableEq

/-- Progress of the send stage's proxy goroutine. -/
inductive SendPhase where
  | launched
  | serialized
  | finished
deriving DecidableEq

/-- Proxy goroutine of the send stage (serialize, then write) with its `ctx`. -/
structure SendJob where
  packet : Packet
  phase : SendPhase
  ctxCancelled : Bool
deriving DecidableEq

/-- Program counter of the goroutine started by `recv`: not started, at the top of the
`for` loop, in the outer `select`, in the inner `select` holding `p`, gone. -/
inductive RecvPc where
  | idle
  | loop
  | select
  | inner (p : Packet)
  | exited
deriving DecidableEq

/-- Program counter of the goroutine started by `run`: not started, before the first
`select`, in the first `select` (the `OnConnection` race), in the outer `select` of the
loop, in the inner `select` holding `p`, in the deferred function before
`close(c.handChan)`, before `close(c.sendChan)`, gone. -/
inductive RunPc where
  | idle
  | start
  | opening
  | outer
  | inner (p : Packet)
  | closeHand
  | closeSend
  | exited
deriving DecidableEq

/-- Program counter of the goroutines started by `message` and by `send`: not
started, in the outer `select`, in the inner `select` racing proxy number `job`, gone. -/
inductive StagePc where
  | idle
  | outer
  | inner (job : Nat)
  | exited
deriving DecidableEq

/-- The `Conn` struct together with the goroutines it owns and the trace.
`cancelled` is the state of `c.context`, `connClosed` the one of `c.conn`; `readers`,
`handJobs` and `sendJobs` list the goroutines started by `readPacket` and by the two
`fnProxy` calls, oldest first. -/
structure Conn where
  option : ConnOption
  state : ConnState
  cancelled : Bool
  connClosed : Bool
  isDebug : Bool
  recvChan : Chan Packet
  sendChan : Chan Packet
  handChan : Chan Packet
  recvPc : RecvPc
  readers : List Reader
  runPc : RunPc
  connProxy : ProxyPhase
  messagePc : StagePc
  handJobs : List HandJob
  sendPc : StagePc
  sendJobs : List SendJob
  trace : List Event
deriving DecidableEq

/-! ## Construction and public operations -/

/-- `NewConn`: `remoteAddr` is `conn.RemoteAddr().String()`, `now` is `time.Now()`. -/
def NewConn (remoteAddr : String) (option : ConnOption) (now : Time) : Conn :=
  { option := option
    state := { ActiveTime := now, RemoteAddr := remoteAddr, Message := "", ComplateTime := 0 }
    cancelled := false
    connClosed := false
    isDebug := false
    recvChan := Chan.nil
    sendChan := Chan.nil
    handChan := Chan.nil
    recvPc := .idle
    readers := []
    runPc := .idle
    connProxy := .none
    messagePc := .idle
    handJobs := []
    sendPc := .idle
    sendJobs := []
    trace := [] }

/-- `UseDebug`. -/
def UseDebug (c : Conn) : Conn := { c with isDebug := true }

/-- Append events to the trace. -/
def Conn.emit (c : Conn) (es : List Event) : Conn := { c with trace := c.trace ++ es }

/-- Events logged only when `isDebug` is set. -/
def Conn.debug (c : Conn) (es : List Event) : Conn := if c.isDebug then c.emit es else c

/-- The successive states of one `Close` call, one per statement:
`OnClose(c.state)`, `Message = ...`, `ComplateTime = time.Now()`, `c.cancel()`,
and the deferred `c.conn.Close()`. -/
def CloseSteps (c : Conn) (now : Time) : List Conn :=
  let c1 := c.emit [.OnClose c.state]
  let c2 := { c1 with state := { c1.state with Message := "conn is closed" } }
  let c3 := { c2 with state := { c2.state with ComplateTime := now } }
  let c4 := { c3.emit [.cancel] with cancelled := true }
  let c5 := { c4.emit [.connClose] with connClosed := true }
  [c1, c2, c3, c4, c5]

/-- `Close`: the state after the last statement of the call. -/
def Close (c : Conn) (now : Time) : Conn := (CloseSteps c now).getLast (by simp [CloseSteps])

/-- `Read`: `transport b` is what `c.conn.Read(b)` returns, `(n, err)` with
`err = none` for nil. -/
def Read (c : Conn) (transport : List Nat → Nat × Option String) (b : List Nat) (now : Time) :
    (Nat × Option String) × Conn :=
  let r := transport b
  let c1 := c.emit [.connRead]
  match r.2 with
  | some _ => (r, Close c1 now)
  | none => (r, c1)

/-- `run`, up to the `go` statement: the three stages are created (each starts its
goroutine) and the orchestrator goroutine is started. -/
def run (c : Conn) : Conn :=
  { c with
    recvChan := Chan.make c.option.MaxRecvChanCount
    recvPc := .loop
    sendChan := Chan.make c.option.MaxSendChanCount
    sendPc := .outer
    handChan := Chan.make 1
    messagePc := .outer
    runPc := .start }

/-- Resolution of the `select` in `Send`. -/
inductive SendBranch where
  | done
  | enqueue
deriving DecidableEq

/-- How a call ends: it returns, it cannot proceed on the chosen case, or it panics. -/
inductive Outcome where
  | returned (c : Conn)
  | blocked
  | panicked
deriving DecidableEq

/-- The state after a call that returned; a blocked or panicked call has none. -/
def Outcome.toOption : Outcome → Option Conn
  | .returned c => some c
  | _ => none

/-- The send stage has taken `packet` from its queue: `ctx` is created and the
`select` with the `fnProxy` goroutine (serialize, then write) is entered. -/
def sendTake (c : Conn) (packet : Packet) : Conn :=
  { c with
    sendJobs := c.sendJobs ++ [{ packet := packet, phase := .launched, ctxCancelled := false }]
    sendPc := .inner c.sendJobs.length }

/-- `Send`: a nil packet is logged and dropped; otherwise the chosen `select` case
is taken when it is ready.  On an unbuffered queue the send case is ready when the
send stage waits at its outer `select` (direct hand-off). -/
def Send (c : Conn) (packet : Packet) (br : SendBranch) : Outcome :=
  match packet with
  | none => .returned (c.emit [.Errorf "%s: packet is nil,do nothing"])
  | some _ =>
    match br with
    | .done => if c.cancelled then .returned c else .blocked
    | .enqueue =>
      match c.sendChan.trySend packet with
      | .sent ch => .returned ({ c with sendChan := ch }.emit [.sendSend packet])
      | .panic => .panicked
      | .blocked =>
        if c.sendChan.handoffReady && c.sendPc == .outer then
          .returned (sendTake (c.emit [.sendSend packet]) packet)
        else .blocked

/-! ## The goroutines -/

/-- Scheduling decisions for the goroutine of `recv`. -/
inductive RecvChoice where
  /-- Top of the loop: `ctx, cancel := ...`, `defer cancel()`, `ch := c.readPacket(ctx)`,
  then the outer `select` is entered. -/
  | begin
  /-- Outer `select`, `case <-c.context.Done(): return`. -/
  | done
  /-- Outer `select`, `case <-time.After(c.option.RecvTimeOut)`. -/
  | timeOut
  /-- Outer `select`, `case p, ok := <-ch`. -/
  | fromReader
  /-- Inner `select`, `case <-c.context.Done(): return`. -/
  | innerDone
  /-- Inner `select`, `case result <- p`. -/
  | enqueue
deriving DecidableEq

/-- The `recv` goroutine returns: the deferred `cancel()` calls end every `ctx` it has
made, then the deferred function runs `close(result)` and the debug lines. -/
def recvExit (c : Conn) : Option Conn :=
  match c.recvChan.close with
  | none => none
  | some ch =>
    some ({ ({ c with recvChan := ch }.emit [.closeRecv]) with recvPc := .exited }.debug
      [.Debugf "%s: recvChan is closed", .Debugf "%s: recv goruntinue exit"])

/-- Replace the last element of a list. -/
def setLast {α : Type} (l : List α) (x : α) : List α := l.set (l.length - 1) x

/-- One move of the goroutine of `recv`.  The `ch` of the current iteration is the one
of the newest reader; a receive from it succeeds with `ok = true` when that reader is
blocked in its send, and with `ok = false` when it has closed the channel.  The send
`result <- p` needs room in the buffer or, on an unbuffered queue, the orchestrator
waiting in its outer `select`, which then holds `p`. -/
def recvStep (c : Conn) : RecvChoice → Option Conn
  | .begin =>
    match c.recvPc with
    | .loop => some { c with readers := c.readers ++ [.launched], recvPc := .select }
    | _ => none
  | .done =>
    match c.recvPc with
    | .select => if c.cancelled then recvExit c else none
    | _ => none
  | .timeOut =>
    match c.recvPc with
    | .select => some { c.emit [.OnTimeOut .RecvTimeOut] with recvPc := .loop }
    | _ => none
  | .fromReader =>
    match c.recvPc with
    | .select =>
      match c.readers.getLast? with
      | some (.offering p) =>
        some { c with readers := setLast c.readers .closed, recvPc := .inner p }
      | some .closed => some { c with recvPc := .loop }
      | _ => none
    | _ => none
  | .innerDone =>
    match c.recvPc with
    | .inner _ => if c.cancelled then recvExit c else none
    | _ => none
  | .enqueue =>
    match c.recvPc with
    | .inner p =>
      match c.recvChan.trySend p with
      | .sent ch => some { ({ c with recvChan := ch }.emit [.recvSend p]) with recvPc := .loop }
      | .panic => none
      | .blocked =>
        if c.recvChan.handoffReady && c.runPc == .outer then
          some { c.emit [.recvSend p] with recvPc := .loop, runPc := .inner p }
        else none
    | _ => none

/-- Moves of a goroutine started by `readPacket`; `i` is its position in `readers`. -/
inductive ReaderChoice where
  /-- The first `select` (`ctx.Done()` or `default`), then the call of
  `Handle.ReadPacket`. -/
  | start (i : Nat)
  /-- The call `Handle.ReadPacket(ctx, c)` returns `(p, nil)`. -/
  | decodeOk (i : Nat) (p : Packet)
  /-- The call `Handle.ReadPacket(ctx, c)` returns an error. -/
  | decodeErr (i : Nat)
  /-- Last `select`, `case <-ctx.Done()`. -/
  | deliverDone (i : Nat)
deriving DecidableEq

/-- One move of a `readPacket` goroutine.  Its `ctx` is cancelled only by the deferred
`cancel()` calls of `recv`, that is once the `recv` goroutine has exited.  Delivery of
a packet is a hand-off taken by `recvStep`. -/
def readPacketStep (c : Conn) : ReaderChoice → Option Conn
  | .start i =>
    match c.readers.get? i with
    | some .launched =>
      if c.recvPc == .exited then some { c with readers := c.readers.set i .returned }
      else some { c.emit [.ReadPacket] with readers := c.readers.set i .decoding }
    | _ => none
  | .decodeOk i p =>
    match c.readers.get? i with
    | some .decoding => some { c.debug [.Debugf "%s: read a packet"] with
        readers := c.readers.set i (.offering p) }
    | _ => none
  | .decodeErr i =>
    match c.readers.get? i with
    | some .decoding => some { c.emit [.Errorf "err"] with
        readers := c.readers.set i .closed }
    | _ => none
  | .deliverDone i =>
    match c.readers.get? i with
    | some (.offering _) =>
      if c.recvPc == .exited then some { c with readers := c.readers.set i .closed } else none
    | _ => none

/-- Scheduling decisions for the orchestrator goroutine started by `run`. -/
inductive RunChoice where
  /-- The first `select` is entered: `fnProxy` starts the `OnConnection` goroutine. -/
  | begin
  /-- First `select`, the proxy's completion signal. -/
  | openDone
  /-- First `select`, `case <-time.After(c.option.SendTimeOut)`. -/
  | openTimeOut
  /-- Outer `select` of the loop, `case <-c.context.Done(): return`. -/
  | done
  /-- Outer `select` of the loop, `case p, ok := <-c.recvChan`. -/
  | recv
  /-- Inner `select`, `case <-c.context.Done(): return`. -/
  | innerDone
  /-- Inner `select`, `case c.handChan <- p`. -/
  | forward
  /-- Deferred function, `close(c.handChan)` and its debug line. -/
  | closeHand
  /-- Deferred function, `close(c.sendChan)` and its debug lines. -/
  | closeSend
deriving DecidableEq

/-- The proxy goroutine started by the orchestrator runs its function:
`OnConnection(c)`. -/
def connJobRun (c : Conn) : Option Conn :=
  match c.connProxy with
  | .launched => some { c.emit [.OnConnection] with connProxy := .finished }
  | _ => none

/-- One move of the orchestrator goroutine.  After a receive with `ok = false` the
error is logged and the code goes on to the inner `select` with the zero value. -/
def runStep (c : Conn) : RunChoice → Option Conn
  | .begin =>
    match c.runPc with
    | .start => some { c with connProxy := .launched, runPc := .opening }
    | _ => none
  | .openDone =>
    match c.runPc with
    | .opening => if c.connProxy == .finished then some { c with runPc := .outer } else none
    | _ => none
  | .openTimeOut =>
    match c.runPc with
    | .opening => some { c.emit
        [.Debugf "%s: Conn.run: OnConnection funtion invoke used time was too long"] with
        runPc := .outer }
    | _ => none
  | .done =>
    match c.runPc with
    | .outer => if c.cancelled then some { c with runPc := .closeHand } else none
    | _ => none
  | .recv =>
    match c.runPc with
    | .outer =>
      match c.recvChan.tryRecv with
      | .got p ok ch =>
        let c1 := { c with recvChan := ch }
        let c2 := if ok then c1 else c1.emit [.Errorf "%s: Conn.run: recvChan is closed"]
        some { c2 with runPc := .inner p }
      | .blocked => none
    | _ => none
  | .innerDone =>
    match c.runPc with
    | .inner _ => if c.cancelled then some { c with runPc := .closeHand } else none
    | _ => none
  | .forward =>
    match c.runPc with
    | .inner p =>
      match c.handChan.trySend p with
      | .sent ch => some { ({ c with handChan := ch }.emit [.handSend p]) with runPc := .outer }
      | _ => none
    | _ => none
  | .closeHand =>
    match c.runPc with
    | .closeHand =>
      match c.handChan.close with
      | some ch => some { ({ c with handChan := ch }.emit [.closeHand]).debug
          [.Debugf "%s: Conn.run: handChan is closed"] with runPc := .closeSend }
      | none => none
    | _ => none
  | .closeSend =>
    match c.runPc with
    | .closeSend =>
      match c.sendChan.close with
      | some ch => some { ({ c with sendChan := ch }.emit [.closeSend]).debug
          [.Debugf "%s: Conn.Close: sendChan is closed",
           .Debugf "%s: Conn.run: proxy goruntinue exit"] with runPc := .exited }
      | none => none
    | _ => none

/-- Scheduling decisions for the goroutines of `message` and of `send`. -/
inductive StageChoice where
  /-- Outer `select`, `case <-c.context.Done(): return`. -/
  | done
  /-- Outer `select`, the receive from the stage's queue. -/
  | recv
  /-- Inner `select`, `case <-c.context.Done()`. -/
  | innerDone
  /-- Inner `select`, the `time.After` case. -/
  | timeOut
  /-- Inner `select`, the proxy's completion signal. -/
  | proxyDone
deriving DecidableEq

/-- One move of the dispatch goroutine started by `message`.  Entering the inner
`select` evaluates `fnProxy(...)`, which starts the goroutine calling `OnMessage`. -/
def messageStep (c : Conn) : StageChoice → Option Conn
  | .done =>
    match c.messagePc with
    | .outer =>
      if c.cancelled then
        some { c.debug [.Debugf "%s: hand goruntinue exit"] with messagePc := .exited }
      else none
    | _ => none
  | .recv =>
    match c.messagePc with
    | .outer =>
      match c.handChan.tryRecv with
      | .got p true ch =>
        some { c with
          handChan := ch
          handJobs := c.handJobs ++ [{ packet := p, phase := .launched }]
          messagePc := .inner c.handJobs.length }
      | .got _ false ch =>
        some { ({ c with handChan := ch }.emit
          [.Errorf "%s: Conn.Message: hand packet chan was closed"]).debug
          [.Debugf "%s: hand goruntinue exit"] with messagePc := .exited }
      | .blocked => none
    | _ => none
  | .innerDone =>
    match c.messagePc with
    | .inner _ => if c.cancelled then some { c with messagePc := .outer } else none
    | _ => none
  | .timeOut =>
    match c.messagePc with
    | .inner _ => some { c.emit [.OnTimeOut .HandTimeOut] with messagePc := .outer }
    | _ => none
  | .proxyDone =>
    match c.messagePc with
    | .inner j =>
      match c.handJobs.get? j with
      | some ⟨_, .finished⟩ => some { c with messagePc := .outer }
      | _ => none
    | _ => none

/-- The proxy goroutine `i` of the dispatch stage runs its function: `OnMessage(c, p)`. -/
def handJobRun (c : Conn) (i : Nat) : Option Conn :=
  match c.handJobs.get? i with
  | some ⟨p, .launched⟩ =>
    some { (c.emit [.OnMessage p]).debug [.Debugf "%s: hand a packet"] with
      handJobs := c.handJobs.set i { packet := p, phase := .finished } }
  | _ => none

/-- One move of the goroutine started by `send`. -/
def sendStep (c : Conn) : StageChoice → Option Conn
  | .done =>
    match c.sendPc with
    | .outer =>
      if c.cancelled then
        some { c.debug [.Debugf "%s: send goruntinue exit"] with sendPc := .exited }
      else none
    | _ => none
  | .recv =>
    match c.sendPc with
    | .outer =>
      match c.sendChan.tryRecv with
      | .got packet true ch => some (sendTake { c with sendChan := ch } packet)
      | .got _ false ch =>
        some { ({ c with sendChan := ch }.debug
          [.Debugf "%s: Conn.Send:sendChan is closed"]).debug
          [.Debugf "%s: send goruntinue exit"] with sendPc := .exited }
      | .blocked => none
    | _ => none
  | .innerDone =>
    match c.sendPc with
    | .inner j =>
      if c.cancelled then
        some { c.debug [.Debugf "%s: send goruntinue exit"] with
          sendJobs := c.sendJobs.modify (fun job => { job with ctxCancelled := true }) j
          sendPc := .exited }
      else none
    | _ => none
  | .timeOut =>
    match c.sendPc with
    | .inner _ => some { c.emit [.OnTimeOut .SendTimeOut] with sendPc := .outer }
    | _ => none
  | .proxyDone =>
    match c.sendPc with
    | .inner j =>
      match c.sendJobs.get? j with
      | some ⟨_, .finished, _⟩ => some { c with sendPc := .outer }
      | _ => none
    | _ => none

/-- Moves of the proxy goroutine `i` of the send stage. -/
inductive SendJobChoice where
  /-- The call `packet.Serialize(ctx)` returns, without error when `ok`. -/
  | serialize (i : Nat) (ok : Bool)
  /-- The `default` case: `c.conn.Write(sendData)` returns, without error when `ok`,
  then `cancel()`. -/
  | write (i : Nat) (ok : Bool)
  /-- The case `<-ctx.Done()`. -/
  | skip (i : Nat)
deriving DecidableEq

/-- One move of a send proxy: `packet.Serialize(ctx)` (failing or not), then either
`c.conn.Write(sendData)` followed by `cancel()`, or nothing when `ctx` is done (its
deadline may have passed at any time, or the stage has cancelled it). -/
def sendJobStep (c : Conn) : SendJobChoice → Option Conn
  | .serialize i ok =>
    match c.sendJobs.get? i with
    | some ⟨p, .launched, x⟩ =>
      if ok then
        some { c.emit [.Serialize p] with sendJobs := c.sendJobs.set i ⟨p, .serialized, x⟩ }
      else
        some { c.emit [.Serialize p, .Errorf "err"] with
          sendJobs := c.sendJobs.set i ⟨p, .finished, x⟩ }
    | _ => none
  | .write i ok =>
    match c.sendJobs.get? i with
    | some ⟨p, .serialized, false⟩ =>
      let c1 := c.emit [.connWrite p]
      let c2 := if ok then c1.debug [.Debugf "%s: send a packet"] else c1.emit [.Errorf "err"]
      some { c2 with sendJobs := c.sendJobs.set i ⟨p, .finished, true⟩ }
    | _ => none
  | .skip i =>
    match c.sendJobs.get? i with
    | some ⟨p, .serialized, x⟩ => some { c with sendJobs := c.sendJobs.set i ⟨p, .finished, x⟩ }
    | _ => none

/-! ## The whole system -/

/-- Everything that can happen next: a call from outside (`run` by the server,
`UseDebug`, `Close`, `Send`, `Read` by any goroutine) or a move of one goroutine.
`Close` and `Read` carry the clock reading, `Read` the transport's answer. -/
inductive Choice where
  | callRun
  | callUseDebug
  | callClose (now : Time)
  | callSend (packet : Packet) (br : SendBranch)
  | callRead (n : Nat) (err : Option String) (now : Time)
  | recv (ch : RecvChoice)
  | reader (ch : ReaderChoice)
  | orch (ch : RunChoice)
  | connJob
  | hand (ch : StageChoice)
  | handJob (i : Nat)
  | send (ch : StageChoice)
  | sendJob (ch : SendJobChoice)
deriving DecidableEq

/-- One transition of the system; `none` when the choice is not possible in `c`
(a case that is not ready, a goroutine that is elsewhere) or ends in a panic. -/
def step (c : Conn) : Choice → Option Conn
  | .callRun => if c.runPc == .idle then some (run c) else none
  | .callUseDebug => some (UseDebug c)
  | .callClose now => some (Close c now)
  | .callSend packet br => (Send c packet br).toOption
  | .callRead n err now => some (Read c (fun _ => (n, err)) [] now).2
  | .recv ch => recvStep c ch
  | .reader ch => readPacketStep c ch
  | .orch ch => runStep c ch
  | .connJob => connJobRun c
  | .hand ch => messageStep c ch
  | .handJob i => handJobRun c i
  | .send ch => sendStep c ch
  | .sendJob ch => sendJobStep c ch

/-- Run a schedule, a list of choices, from `c`. -/
def exec (c : Conn) : List Choice → Option Conn
  | [] => some c
  | ch :: rest => (step c ch).bind (fun c1 => exec c1 rest)

/-! ## Reading the trace -/

/-- States passed to `OnClose`, in call order. -/
def onCloseStates (t : List Event) : List ConnState :=
  t.filterMap (fun e => match e with | .OnClose st => some st | _ => none)

/-- Packets enqueued on the receive queue by the receive stage, in order. -/
def decoded (t : List Event) : List Packet :=
  t.filterMap (fun e => match e with | .recvSend p => some p | _ => none)

/-- Packets the orchestrator has sent on `handChan`, in order. -/
def forwarded (t : List Event) : List Packet :=
  t.filterMap (fun e => match e with | .handSend p => some p | _ => none)

/-- Packets with which `OnMessage` has been called, in order. -/
def dispatched (t : List Event) : List Packet :=
  t.filterMap (fun e => match e with | .OnMessage p => some p | _ => none)

/-- Packets put on the send queue by `Send`, in order. -/
def queuedForSend (t : List Event) : List Packet :=
  t.filterMap (fun e => match e with | .sendSend p => some p | _ => none)

/-- Packets written to the transport, in order. -/
def written (t : List Event) : List Packet :=
  t.filterMap (fun e => match e with | .connWrite p => some p | _ => none)

/-- The closes of `handChan` and `sendChan`, in order. -/
def closeEvents (t : List Event) : List Event :=
  t.filter (fun e => e == .closeHand || e == .closeSend)

/-- The calls of `c.cancel()`. -/
def cancelCalls (t : List Event) : List Event := t.filter (fun e => e == .cancel)

/-- States a schedule can reach from a freshly built connection. -/
def Reachable (c : Conn) : Prop :=
  ∃ remoteAddr option now sched, exec (NewConn remoteAddr option now) sched = some c

/-- A configuration used for the concrete runs: both queue depths 1, timeouts 50. -/
def demoOption : ConnOption :=
  { MaxRecvChanCount := 1, MaxSendChanCount := 1, RecvTimeOut := 50, SendTimeOut := 50,
    HandTimeOut := 50 }

/-- A connection built at clock reading 1000. -/
def demoConn : Conn := NewConn "peer" demoOption 1000

/-! ## Invariant and concrete schedules -/

/-- What holds in every reachable state about the orchestrator and the two queues it
closes: the queues exist once `run` was called, `handChan` is closed exactly from the
second deferred statement on and `sendChan` exactly once the goroutine is gone, the
closes recorded so far are the ones of those program points, the goroutine only
leaves its loop after cancellation, and no send on `handChan` follows its close. -/
structure Inv (c : Conn) : Prop where
  handNil : c.handChan.isNil = true ↔ c.runPc = .idle
  sendNil : c.sendChan.isNil = true ↔ c.runPc = .idle
  handClosed : c.handChan.closed = true ↔ (c.runPc = .closeSend ∨ c.runPc = .exited)
  sendClosed : c.sendChan.closed = true ↔ c.runPc = .exited
  closes : closeEvents c.trace =
    (match c.runPc with
      | .exited => [.closeHand, .closeSend]
      | .closeSend => [.closeHand]
      | _ => [])
  stopping : (c.runPc = .closeHand ∨ c.runPc = .closeSend ∨ c.runPc = .exited) →
    c.cancelled = true
  order : ∀ p, ¬ List.Sublist [Event.closeHand, Event.handSend p] c.trace

/-- The send case `result <- p` of the receive stage is ready: the receive queue has
room, or it is unbuffered and the orchestrator waits in its outer `select`. -/
def recvSendReady (c : Conn) : Bool :=
  (!c.recvChan.isNil && !c.recvChan.closed && c.recvChan.buf.length < c.recvChan.cap) ||
  (c.recvChan.handoffReady && c.runPc == .outer)

/-- Start the pipeline and let the `OnConnection` proxy finish. -/
def schedOpen : List Choice :=
  [.callRun, .orch .begin, .connJob, .orch .openDone]

/-- One iteration of the receive stage that decodes `p` with reader `i` and enqueues it. -/
def schedDecode (i : Nat) (p : Packet) : List Choice :=
  [.recv .begin, .reader (.start i), .reader (.decodeOk i p), .recv .fromReader, .recv .enqueue]

/-- Packet 1 is decoded, forwarded and dispatched; then `Close` is called, the receive
stage takes its cancellation case and closes the receive queue; the orchestrator's
outer `select` takes the receive case (zero value, `ok = false`), its inner `select`
the send case, and the dispatch stage's outer `select` the receive case. -/
def schedNilDispatch : List Choice :=
  schedOpen ++ schedDecode 0 (some 1) ++
  [.orch .recv, .orch .forward, .hand .recv, .handJob 0, .hand .proxyDone,
   .callClose 2000, .recv .begin, .recv .done,
   .orch .recv, .orch .forward, .hand .recv, .handJob 1]

/-- Packet 1 is decoded and enqueued on the receive queue, then `Close` is called. -/
def schedCancelUnread : List Choice :=
  schedOpen ++ schedDecode 0 (some 1) ++ [.callClose 2000]

/-- After cancellation the orchestrator's selects take the queue cases and so does
the dispatch stage's outer `select`; the proxy then calls `OnMessage`. -/
def schedForwardAfterCancel : List Choice :=
  [.orch .recv, .orch .forward, .hand .recv, .handJob 0]

/-- After cancellation every `select` takes its cancellation case. -/
def schedCancelCases : List Choice :=
  [.orch .done, .hand .done, .recv .begin, .recv .done, .send .done,
   .orch .closeHand, .orch .closeSend]

/-- Packet 7 is enqueued by `Send`, `Close` is called, and the orchestrator takes its
cancellation case and closes both queues while packet 7 is still buffered. -/
def schedCloseBuffered : List Choice :=
  schedOpen ++ [.callSend (some 7) .enqueue, .callClose 2000, .orch .done, .orch .closeHand,
    .orch .closeSend]

/-- The send stage's outer `select` takes the queue case; the proxy serializes and
writes. -/
def schedWriteAfterClose : List Choice :=
  [.send .recv, .sendJob (.serialize 0 true), .sendJob (.write 0 true)]

/-- A full orderly run: one packet through the pipeline, then shutdown with every
`select` taking its cancellation case. -/
def schedShutdown : List Choice :=
  schedOpen ++ schedDecode 0 (some 1) ++
  [.orch .recv, .orch .forward, .hand .recv, .handJob 0, .hand .proxyDone,
   .callClose 2000] ++ schedCancelCases

/-- The receive stage waiting in its `select` for its first decode. -/
def schedRecvWaiting : List Choice :=
  schedOpen ++ [.recv .begin, .reader (.start 0)]

/-- Packet 1 is decoded and fills the receive queue (depth 1); packet 2 is decoded in
the next iteration and the receive stage holds it in its inner `select`. -/
def schedRecvHolding : List Choice :=
  schedOpen ++ schedDecode 0 (some 1) ++
  [.recv .begin, .reader (.start 1), .reader (.decodeOk 1 (some 2)), .recv .fromReader]

/-- The state after the orderly run `schedShutdown`. -/
def shutdownState : Conn := (exec demoConn schedShutdown).getD demoConn

/-- The state after `schedCancelUnread`: cancelled, packet 1 unread in the receive queue. -/
def cancelUnreadState : Conn := (exec demoConn schedCancelUnread).getD demoConn

/-- The state after `schedCloseBuffered`: send queue closed, packet 7 still buffered. -/
def closeBufferedState : Conn := (exec demoConn schedCloseBuffered).getD demoConn

/-- The state after `schedRecvWaiting`: the receive stage waits for its first decode. -/
def recvWaitingState : Conn := (exec demoConn schedRecvWaiting).getD demoConn

/-- The state after `schedRecvHolding`: the queue is full and the stage holds packet 2. -/
def recvHoldingState : Conn := (exec demoConn schedRecvHolding).getD demoConn

end tcpserver

namespace bulkruntool

/-! ## `CreateBulkRunFuncChannel` -/

/-- A `func()` value; `none` is nil, `some k` the function number `k`. -/
abbrev Fn := Option Nat

/-- Program counter of the dispatcher goroutine: at the `select`, at `ch <- 1` with the
function just received, at the deferred `close(ch)`, at the deferred `close(funcs)`,
gone, or stopped by a run-time panic. -/
inductive DispatcherPc where
  | select
  | slot (fn : Fn)
  | closeCh
  | closeFuncs
  | exited
  | panicked
deriving DecidableEq

/-- Progress of a worker goroutine: started, `f()` done (now at `<-ch`), gone. -/
inductive WorkerPhase where
  | launched
  | ran
  | finished
deriving DecidableEq

/-- What happens, in order. -/
inductive PoolEvent where
  | closeFuncsByCaller
  | closeCh
  | closeFuncs
  | call (fn : Fn)
  | panicCloseOfClosedChannel
deriving DecidableEq

/-- The two channels, the dispatcher goroutine and the workers it has started. -/
structure Pool where
  funcs : Chan Fn
  ch : Chan Nat
  pc : DispatcherPc
  workers : List (Fn × WorkerPhase)
  trace : List PoolEvent
deriving DecidableEq

/-- `CreateBulkRunFuncChannel`: both channels are made with capacity `maxTaskCount`
(`maxFuncCount` is not used) and the dispatcher goroutine is started. -/
def CreateBulkRunFuncChannel (maxTaskCount _maxFuncCount : Nat) : Pool :=
  { funcs := Chan.make maxTaskCount, ch := Chan.make maxTaskCount, pc := .select,
    workers := [], trace := [] }

/-- Who moves next: the caller sends a function or closes `funcs`, the dispatcher
executes its next statement, or worker `i` runs its function or receives from `ch`. -/
inductive PoolChoice where
  | callerSend (fn : Fn)
  | callerClose
  | dispatcher
  | workerRun (i : Nat)
  | workerRelease (i : Nat)
deriving DecidableEq

/-- The dispatcher has put its token on `ch` and starts the worker for `fn`. -/
def spawn (s : Pool) (fn : Fn) : Pool :=
  { s with workers := s.workers ++ [(fn, .launched)], pc := .select }

/-- One transition; `none` when the move is not possible (a blocked channel operation,
a goroutine that is gone) or when the caller or a worker would panic (a send on or a
close of the closed `funcs`, the call of a nil function). -/
def step (s : Pool) : PoolChoice → Option Pool
  | .callerSend fn =>
    match s.funcs.trySend fn with
    | .sent q => some { s with funcs := q }
    | _ => if s.funcs.handoffReady && s.pc == .select then some { s with pc := .slot fn } else none
  | .callerClose =>
    match s.funcs.close with
    | some q => some { s with funcs := q, trace := s.trace ++ [.closeFuncsByCaller] }
    | none => none
  | .dispatcher =>
    match s.pc with
    | .select =>
      match s.funcs.tryRecv with
      | .got fn true q => some { s with funcs := q, pc := .slot fn }
      | .got _ false q => some { s with funcs := q, pc := .closeCh }
      | .blocked => none
    | .slot fn =>
      match s.ch.trySend 1 with
      | .sent q => some (spawn { s with ch := q } fn)
      | _ => none
    | .closeCh =>
      match s.ch.close with
      | some q => some { s with ch := q, pc := .closeFuncs, trace := s.trace ++ [.closeCh] }
      | none => some { s with pc := .panicked, trace := s.trace ++ [.panicCloseOfClosedChannel] }
    | .closeFuncs =>
      match s.funcs.close with
      | some q => some { s with funcs := q, pc := .exited, trace := s.trace ++ [.closeFuncs] }
      | none => some { s with pc := .panicked, trace := s.trace ++ [.panicCloseOfClosedChannel] }
    | _ => none
  | .workerRun i =>
    match s.workers.get? i with
    | some (some k, .launched) =>
      some { s with workers := s.workers.set i (some k, .ran), trace := s.trace ++ [.call (some k)] }
    | _ => none
  | .workerRelease i =>
    match s.workers.get? i with
    | some (fn, .ran) =>
      match s.ch.tryRecv with
      | .got _ _ q => some { s with ch := q, workers := s.workers.set i (fn, .finished) }
      | .blocked =>
        match s.pc with
        | .slot g =>
          if s.ch.handoffReady then
            some (spawn { s with workers := s.workers.set i (fn, .finished) } g)
          else none
        | _ => none
    | _ => none

/-- Run a schedule from `s`. -/
def exec (s : Pool) : List PoolChoice → Option Pool
  | [] => some s
  | ch :: rest => (step s ch).bind (fun s1 => exec s1 rest)

/-- States a schedule can reach after `CreateBulkRunFuncChannel`. -/
def Reachable (s : Pool) : Prop :=
  ∃ maxTaskCount maxFuncCount sched,
    exec (CreateBulkRunFuncChannel maxTaskCount maxFuncCount) sched = some s

end bulkruntool

/-! # Theorems -/

/-! ## Facts about channels -/

/-- When a send succeeds: made, open, room; the element goes to the back of the buffer. -/
theorem Chan.trySend_sent {α : Type} (ch ch1 : Chan α) (x : α) :
    ch.trySend x = .sent ch1 ↔
      ch.isNil = false ∧ ch.closed = false ∧ ch.buf.length < ch.cap ∧
        ch1 = { ch with buf := ch.buf ++ [x] } := by
  rcases ch with ⟨n, cap, buf, cl⟩
  cases n <;> cases cl <;> simp only [Chan.trySend] <;> split_ifs <;>
    simp_all <;> exact ⟨fun h => h.symm, fun h => h.symm⟩

/-- When a receive succeeds: the oldest buffered element with `ok = true`, or the zero
value with `ok = false` from a closed and drained channel. -/
theorem Chan.tryRecv_got {α : Type} [Inhabited α] (ch ch1 : Chan α) (x : α) (ok : Bool) :
    ch.tryRecv = .got x ok ch1 ↔
      ch.isNil = false ∧ ch1.isNil = false ∧ ch1.cap = ch.cap ∧ ch1.closed = ch.closed ∧
        ((ok = true ∧ ch.buf = x :: ch1.buf) ∨
         (ok = false ∧ ch.buf = [] ∧ ch1.buf = [] ∧ ch.closed = true ∧ x = default)) := by
  rcases ch with ⟨n, cap, buf, cl⟩
  rcases ch1 with ⟨n1, cap1, buf1, cl1⟩
  cases n <;> cases cl <;> cases ok <;> cases buf <;> simp [Chan.tryRecv] <;> aesop

/-- When `close` succeeds: made and not yet closed. -/
theorem Chan.close_some {α : Type} (ch ch1 : Chan α) :
    ch.close = some ch1 ↔
      ch.isNil = false ∧ ch.closed = false ∧ ch1 = { ch with closed := true } := by
  rcases ch with ⟨n, cap, buf, cl⟩
  cases n <;> cases cl <;> simp [Chan.close] <;> exact ⟨fun h => h.symm, fun h => h.symm⟩


namespace tcpserver

/-! ## Close, Send and Read -/

theorem Close_eq (c : Conn) (now : Time) :
    Close c now = { c with
      state := { c.state with Message := "conn is closed", ComplateTime := now }
      cancelled := true
      connClosed := true
      trace := c.trace ++ [.OnClose c.state, .cancel, .connClose] } := by
  simp [Close, CloseSteps, Conn.emit]

/-- Every `Close` call makes exactly one `OnClose` call, with the state as it was
before the call. -/
theorem onCloseStates_Close (c : Conn) (now : Time) :
    onCloseStates (Close c now).trace = onCloseStates c.trace ++ [c.state] := by
  simp [Close_eq, onCloseStates]

/-- C1 (evaluation at the failing input): a connection built at clock reading 1000 and
closed once at 2000 gets exactly one `OnClose` call, and the state passed to it has
the zero completion time, which is before its construction time; the stamp 2000 is
only in the connection's own state after the call. -/
theorem Close_passes_state_without_completion_time :
    ∃ st, onCloseStates (Close (NewConn "peer" demoOption 1000) 2000).trace = [st] ∧
      st.ActiveTime = 1000 ∧ st.ComplateTime = 0 ∧ ¬ (st.ActiveTime ≤ st.ComplateTime) ∧
      (Close (NewConn "peer" demoOption 1000) 2000).state.ComplateTime = 2000 := by
  refine ⟨⟨1000, "peer", "", 0⟩, ?_, rfl, rfl, by decide, rfl⟩
  rfl

/-- C3: for every connection state (cancelled or not, whatever the send queue is) and
either resolution of the `select`, `Send` with a nil packet returns: it neither blocks
nor panics.  The connection is unchanged except for one logged error at the end of the
trace: nothing is put on the send queue, the send stage and its proxies are untouched
and nothing is written to the transport. -/
theorem Send_nil_is_logged_noop (c : Conn) (br : SendBranch) :
    ∃ c1, Send c none br = .returned c1 ∧ step c (.callSend none br) = some c1 ∧
      c1 = { c with trace := c.trace ++ [.Errorf "%s: packet is nil,do nothing"] } ∧
      c1.sendChan = c.sendChan ∧ c1.sendJobs = c.sendJobs ∧ c1.sendPc = c.sendPc ∧
      queuedForSend c1.trace = queuedForSend c.trace ∧ written c1.trace = written c.trace := by
  refine ⟨c.emit [.Errorf "%s: packet is nil,do nothing"], rfl, ?_, rfl, rfl, rfl, rfl, ?_, ?_⟩
  · simp [step, Send, Outcome.toOption]
  · simp [queuedForSend, Conn.emit]
  · simp [written, Conn.emit]

/-- C9: `Read` returns exactly what the transport's `Read` returned on `b`; when the
error is non-nil the rest of the call is one `Close` (one more `OnClose`, one more
`cancel`), and when it is nil nothing but the transport read happens: no `OnClose`, no
`cancel`, and the cancellation flag and the connection state are unchanged. -/
theorem Read_closes_iff_error (c : Conn) (transport : List Nat → Nat × Option String)
    (b : List Nat) (now : Time) :
    (Read c transport b now).1 = transport b ∧
    (Read c transport b now).2 =
      (if (transport b).2.isSome then Close (c.emit [.connRead]) now else c.emit [.connRead]) ∧
    (onCloseStates (Read c transport b now).2.trace).length =
      (onCloseStates c.trace).length + (if (transport b).2.isSome then 1 else 0) ∧
    (cancelCalls (Read c transport b now).2.trace).length =
      (cancelCalls c.trace).length + (if (transport b).2.isSome then 1 else 0) ∧
    ((transport b).2 = none →
      (Read c transport b now).2.cancelled = c.cancelled ∧
      (Read c transport b now).2.state = c.state ∧
      (Read c transport b now).2.connClosed = c.connClosed ∧
      (Read c transport b now).2.trace = c.trace ++ [.connRead]) := by
  have hr : Read c transport b now = (transport b,
      if (transport b).2.isSome then Close (c.emit [.connRead]) now else c.emit [.connRead]) := by
    rcases h : transport b with ⟨n, e⟩
    cases e <;> simp [Read, h]
  rw [hr]
  cases h : (transport b).2 with
  | none => simp [Conn.emit, onCloseStates, cancelCalls]
  | some e => simp [Conn.emit, onCloseStates, cancelCalls, Close_eq]

/-! ## The orchestrator's closing discipline -/

/-- A pair is not a subsequence of `l ++ es` when it is not one of `l` and `es` does
not supply its second element after its first. -/
theorem order_append {α : Type} (x y : α) (l es : List α)
    (h1 : ¬ List.Sublist [x, y] l)
    (h2 : x ∈ l → y ∉ es)
    (h3 : x ∈ es → y ∉ es) :
    ¬ List.Sublist [x, y] (l ++ es) := by
  intro h
  rw [List.sublist_append_iff] at h
  obtain ⟨a, b, hab, ha, hb⟩ := h
  rcases a with _ | ⟨u, _ | ⟨v, _ | ⟨w, r⟩⟩⟩
  · simp only [List.nil_append] at hab
    subst hab
    exact h3 (hb.subset (by simp)) (hb.subset (by simp))
  · simp only [List.cons_append, List.nil_append, List.cons.injEq] at hab
    obtain ⟨rfl, rfl⟩ := hab
    exact h2 (ha.subset (by simp)) (hb.subset (by simp))
  · simp only [List.cons_append, List.nil_append, List.cons.injEq] at hab
    obtain ⟨rfl, rfl, -⟩ := hab
    exact h1 ha
  · simp at hab

theorem closeHand_not_mem (t : List Event) (h : closeEvents t = []) : Event.closeHand ∉ t := by
  intro hm
  have : Event.closeHand ∈ closeEvents t := by simp [closeEvents, hm]
  rw [h] at this
  simp at this

set_option maxHeartbeats 4000000 in
/-- Every transition preserves the invariant. -/
theorem inv_step (c c1 : Conn) (ch : Choice) (hi : Inv c) (h : step c ch = some c1) :
    Inv c1 := by
  obtain ⟨h1, h2, h3, h4, h5, h6, h7⟩ := hi
  rcases ch with _ | _ | now | ⟨p, br⟩ | ⟨n, e, now⟩ | x | x | x | _ | x | i | x | x <;>
    (try cases x) <;>
    simp only [step, recvStep, readPacketStep, runStep, connJobRun, messageStep, handJobRun,
      sendStep, sendJobStep, recvExit, sendTake, Send, Read, Close_eq, run, UseDebug,
      Conn.emit, Conn.debug, Chan.make] at h <;>
    repeat' split at h
  all_goals (first | (simp [Outcome.toOption] at h; done) | skip)
  all_goals (simp [Outcome.toOption] at h; subst h; constructor <;>
    first
    | (simp_all [closeEvents, Chan.trySend_sent, Chan.tryRecv_got, Chan.close_some]; done)
    | exact h7
    | (intro q
       refine order_append _ _ _ _ (h7 q) ?_ ?_
       · first
         | (simp; done)
         | (intro hm; exact absurd hm (closeHand_not_mem _ (by simp_all)))
       · simp))

/-! ## What a single transition can change -/

set_option maxHeartbeats 4000000 in
/-- For every transition: the token stays triggered; when the trace still has no
`OnClose` call afterwards, the connection state is unchanged; only the orchestrator's
send case forwards; only the dispatch stage's receive case starts an `OnMessage`
proxy; and the `recv` goroutine exits only through a cancellation case, with the token
triggered. -/
theorem frame_step (c c1 : Conn) (ch : Choice) (h : step c ch = some c1) :
    (c.cancelled = true → c1.cancelled = true) ∧
    (onCloseStates c1.trace = [] → onCloseStates c.trace = [] ∧ c1.state = c.state) ∧
    (ch ≠ .orch .forward → forwarded c1.trace = forwarded c.trace) ∧
    (ch ≠ .hand .recv → c1.handJobs.length = c.handJobs.length) ∧
    (c.recvPc ≠ .exited → c1.recvPc = .exited →
      c.cancelled = true ∧ (ch = .recv .done ∨ ch = .recv .innerDone)) := by
  rcases ch with _ | _ | now | ⟨p, br⟩ | ⟨n, e, now⟩ | x | x | x | _ | x | i | x | x <;>
    (try cases x) <;>
    simp only [step, recvStep, readPacketStep, runStep, connJobRun, messageStep, handJobRun,
      sendStep, sendJobStep, recvExit, sendTake, Send, Read, Close_eq, run, UseDebug,
      Conn.emit, Conn.debug, Chan.make] at h <;>
    repeat' split at h
  all_goals (first | (simp [Outcome.toOption] at h; done) | skip)
  all_goals (simp [Outcome.toOption] at h; subst h; refine ⟨?_, ?_, ?_, ?_, ?_⟩ <;>
    simp_all [onCloseStates, forwarded, Chan.trySend_sent, Chan.tryRecv_got, Chan.close_some])

set_option maxHeartbeats 4000000 in
/-- In a state satisfying the invariant, a transition that is not the orchestrator's
closes neither `handChan` nor `sendChan`; and once `sendChan` is closed, only the send
stage's receive case dequeues from it or starts a serialize-and-write proxy. -/
theorem owner_step (c c1 : Conn) (ch : Choice) (hi : Inv c) (h : step c ch = some c1) :
    ((∀ x, ch ≠ .orch x) → c1.handChan.closed = c.handChan.closed ∧
      c1.sendChan.closed = c.sendChan.closed ∧ closeEvents c1.trace = closeEvents c.trace) ∧
    (ch ≠ .send .recv → c.sendChan.closed = true →
      c1.sendJobs.length = c.sendJobs.length ∧ c1.sendChan.buf = c.sendChan.buf) := by
  obtain ⟨h1, h2, h3, h4, h5, h6, h7⟩ := hi
  rcases ch with _ | _ | now | ⟨p, br⟩ | ⟨n, e, now⟩ | x | x | x | _ | x | i | x | x <;>
    (try cases x) <;>
    simp only [step, recvStep, readPacketStep, runStep, connJobRun, messageStep, handJobRun,
      sendStep, sendJobStep, recvExit, sendTake, Send, Read, Close_eq, run, UseDebug,
      Conn.emit, Conn.debug, Chan.make] at h <;>
    repeat' split at h
  all_goals (first | (simp [Outcome.toOption] at h; done) | skip)
  all_goals (simp [Outcome.toOption] at h; subst h; refine ⟨?_, ?_⟩ <;>
    simp_all [closeEvents, Chan.trySend_sent, Chan.tryRecv_got, Chan.close_some,
      Chan.handoffReady])

/-! ## Schedules -/

theorem exec_cons (c c2 : Conn) (ch : Choice) (rest : List Choice) :
    exec c (ch :: rest) = some c2 ↔ ∃ c1, step c ch = some c1 ∧ exec c1 rest = some c2 := by
  simp only [exec]
  cases step c ch <;> simp

theorem exec_append (c c2 : Conn) (a b : List Choice) :
    exec c (a ++ b) = some c2 ↔ ∃ c1, exec c a = some c1 ∧ exec c1 b = some c2 := by
  induction a generalizing c with
  | nil => simp [exec]
  | cons ch rest ih =>
    simp only [List.cons_append, exec_cons, ih]
    constructor
    · rintro ⟨c1, h1, c3, h3, h4⟩
      exact ⟨c3, ⟨c1, h1, h3⟩, h4⟩
    · rintro ⟨c3, ⟨c1, h1, h3⟩, h4⟩
      exact ⟨c1, h1, c3, h3, h4⟩

theorem inv_NewConn (remoteAddr : String) (option : ConnOption) (now : Time) :
    Inv (NewConn remoteAddr option now) := by
  constructor <;> simp [NewConn, Chan.nil, closeEvents]

theorem inv_exec (c c1 : Conn) (sched : List Choice) (hi : Inv c)
    (h : exec c sched = some c1) : Inv c1 := by
  induction sched generalizing c with
  | nil => simp [exec] at h; subst h; exact hi
  | cons ch rest ih =>
    obtain ⟨c2, h2, h3⟩ := (exec_cons c c1 ch rest).1 h
    exact ih c2 (inv_step c c2 ch hi h2) h3

theorem inv_of_reachable (c : Conn) (h : Reachable c) : Inv c := by
  obtain ⟨a, o, n, sched, hs⟩ := h
  exact inv_exec _ _ sched (inv_NewConn a o n) hs

theorem reachable_exec (c c1 : Conn) (sched : List Choice) (hr : Reachable c)
    (h : exec c sched = some c1) : Reachable c1 := by
  obtain ⟨a, o, n, s0, hs⟩ := hr
  exact ⟨a, o, n, s0 ++ sched, (exec_append _ _ _ _).2 ⟨c, hs, h⟩⟩

theorem unclosed_exec (c c1 : Conn) (sched : List Choice) (h : exec c sched = some c1)
    (hn : onCloseStates c1.trace = []) : onCloseStates c.trace = [] ∧ c1.state = c.state := by
  induction sched generalizing c with
  | nil => simp [exec] at h; subst h; exact ⟨hn, rfl⟩
  | cons ch rest ih =>
    obtain ⟨c2, h2, h3⟩ := (exec_cons c c1 ch rest).1 h
    obtain ⟨h4, h5⟩ := ih c2 h3
    obtain ⟨h6, h7⟩ := (frame_step c c2 ch h2).2.1 h4
    exact ⟨h6, h5.trans h7⟩

theorem cancel_preferring_exec (c c1 : Conn) (sched : List Choice) (h : exec c sched = some c1)
    (hc : c.cancelled = true)
    (hf : Choice.orch .forward ∉ sched) (hr : Choice.hand .recv ∉ sched) :
    c1.cancelled = true ∧ forwarded c1.trace = forwarded c.trace ∧
      c1.handJobs.length = c.handJobs.length := by
  induction sched generalizing c with
  | nil => simp [exec] at h; subst h; exact ⟨hc, rfl, rfl⟩
  | cons ch rest ih =>
    obtain ⟨c2, h2, h3⟩ := (exec_cons c c1 ch rest).1 h
    simp only [List.mem_cons, not_or] at hf hr
    obtain ⟨f1, f2, f3, f4, -⟩ := frame_step c c2 ch h2
    obtain ⟨g1, g2, g3⟩ := ih c2 h3 (f1 hc) hf.2 hr.2
    exact ⟨g1, g2.trans (f3 (Ne.symm hf.1)), g3.trans (f4 (Ne.symm hr.1))⟩

theorem closed_queue_exec (c c1 : Conn) (sched : List Choice) (h : exec c sched = some c1)
    (hi : Inv c) (hcl : c.sendChan.closed = true) (hr : Choice.send .recv ∉ sched) :
    c1.sendChan.closed = true ∧ c1.sendJobs.length = c.sendJobs.length ∧
      c1.sendChan.buf = c.sendChan.buf := by
  induction sched generalizing c with
  | nil => simp [exec] at h; subst h; exact ⟨hcl, rfl, rfl⟩
  | cons ch rest ih =>
    obtain ⟨c2, h2, h3⟩ := (exec_cons c c1 ch rest).1 h
    simp only [List.mem_cons, not_or] at hr
    have hi2 := inv_step c c2 ch hi h2
    have hex : c.runPc = .exited := hi.sendClosed.1 hcl
    have hno : ∀ x, ch ≠ .orch x := by
      intro x hx
      subst hx
      cases x <;> simp [step, runStep, hex] at h2
    obtain ⟨o1, o2⟩ := owner_step c c2 ch hi h2
    obtain ⟨-, o3, -⟩ := o1 hno
    obtain ⟨o4, o5⟩ := o2 (Ne.symm hr.1) hcl
    obtain ⟨g1, g2, g3⟩ := ih c2 h3 hi2 (o3.trans hcl) hr.2
    exact ⟨g1, g2.trans o4, g3.trans o5⟩

/-! ## Close -/

/-- C2: one `Close` call goes through exactly these states, in this order: `OnClose`
is called with the state as it was before the call, then `Message` is set, then the
completion time is stamped, then the token is cancelled, then the transport is closed;
nothing else changes, in particular `ActiveTime` and `RemoteAddr`.  And on every
connection reached from `NewConn` without any `Close` call (no `OnClose` in the
trace) the completion time is still the zero time. -/
theorem Close_effects_in_order (c : Conn) (now : Time) :
    (∃ c1 c2 c3 c4 c5, CloseSteps c now = [c1, c2, c3, c4, c5] ∧ Close c now = c5 ∧
      c1 = { c with trace := c.trace ++ [.OnClose c.state] } ∧
      c2 = { c1 with state := { c.state with Message := "conn is closed" } } ∧
      c3 = { c2 with state := { c2.state with ComplateTime := now } } ∧
      c4 = { c3 with cancelled := true, trace := c3.trace ++ [.cancel] } ∧
      c5 = { c4 with connClosed := true, trace := c4.trace ++ [.connClose] }) ∧
    Close c now = { c with
      state := { c.state with Message := "conn is closed", ComplateTime := now }
      cancelled := true
      connClosed := true
      trace := c.trace ++ [.OnClose c.state, .cancel, .connClose] } ∧
    (Close c now).state.ActiveTime = c.state.ActiveTime ∧
    (Close c now).state.RemoteAddr = c.state.RemoteAddr ∧
    (∀ remoteAddr option t0 sched s, exec (NewConn remoteAddr option t0) sched = some s →
      onCloseStates s.trace = [] → s.state.ComplateTime = 0 ∧ s.state.Message = "") := by
  refine ⟨⟨_, _, _, _, _, rfl, rfl, rfl, rfl, rfl, ?_, ?_⟩, Close_eq c now, ?_, ?_, ?_⟩
  · simp [Conn.emit]
  · simp [Conn.emit]
  · simp [Close_eq]
  · simp [Close_eq]
  · intro a o t0 sched s hs hn
    obtain ⟨-, h2⟩ := unclosed_exec _ _ sched hs hn
    simp [h2, NewConn]

/-- Witness for C2: after the pipeline has been started and no `Close` was called, the
completion time is the zero time; after one `Close` at 2000 it is 2000, with the
construction time and the remote address as before. -/
theorem Close_effects_in_order_witness :
    (∃ s, exec demoConn schedOpen = some s ∧ onCloseStates s.trace = [] ∧
      s.state.ComplateTime = 0) ∧
    (Close demoConn 2000).state = ⟨1000, "peer", "conn is closed", 2000⟩ ∧
    (Close demoConn 2000).trace = [.OnClose ⟨1000, "peer", "", 0⟩, .cancel, .connClose] := by
  refine ⟨⟨_, rfl, by decide, ?_⟩, ?_, ?_⟩
  · exact ((Close_effects_in_order demoConn 0).2.2.2.2 "peer" demoOption 1000 schedOpen _ rfl
      (by decide)).1
  · rw [(Close_effects_in_order demoConn 2000).2.1]
    rfl
  · rw [(Close_effects_in_order demoConn 2000).2.1]
    rfl

/-! ## Dispatch order -/

/-- C4 (evaluation at the failing input): in the run `schedNilDispatch` the receive
stage enqueues only packet 1, and `OnMessage` is called with packet 1 and then with
nil, the zero value the orchestrator read from the closed receive queue: the packets
dispatched are not an initial segment of the packets decoded. -/
theorem OnMessage_gets_nil_from_closed_queue :
    ∃ s, exec demoConn schedNilDispatch = some s ∧
      decoded s.trace = [some 1] ∧ dispatched s.trace = [some 1, none] ∧
      ¬ List.IsPrefix (dispatched s.trace) (decoded s.trace) := by
  refine ⟨_, rfl, by decide, by decide, ?_⟩
  intro h
  have := h.length_le
  revert this
  decide

/-! ## The orchestrator's shutdown -/

theorem reachable_shutdownState : Reachable shutdownState :=
  ⟨"peer", demoOption, 1000, schedShutdown, by rfl⟩

theorem reachable_cancelUnreadState : Reachable cancelUnreadState :=
  ⟨"peer", demoOption, 1000, schedCancelUnread, by rfl⟩

theorem reachable_closeBufferedState : Reachable closeBufferedState :=
  ⟨"peer", demoOption, 1000, schedCloseBuffered, by rfl⟩

/-- C5: in every reachable state the closes of `handChan` and `sendChan` recorded so
far are none while the orchestrator is in its loop, `handChan` alone once it has
executed the first deferred statement, and `handChan` then `sendChan`, once each, when
it has stopped; it stops only after cancellation; no send on `handChan` follows the
close of `handChan`; both deferred closes succeed (no panic); and a transition of any
other goroutine or caller closes neither queue. -/
theorem orchestrator_closes_hand_then_send (s : Conn) (hr : Reachable s) :
    closeEvents s.trace =
      (match s.runPc with
        | .exited => [.closeHand, .closeSend]
        | .closeSend => [.closeHand]
        | _ => []) ∧
    ((s.runPc = .closeHand ∨ s.runPc = .closeSend ∨ s.runPc = .exited) →
      s.cancelled = true) ∧
    (∀ p, ¬ List.Sublist [Event.closeHand, Event.handSend p] s.trace) ∧
    (s.runPc = .closeHand → ∃ s1, step s (.orch .closeHand) = some s1 ∧
      s1.runPc = .closeSend ∧ s1.handChan.closed = true ∧ s1.sendChan.closed = false) ∧
    (s.runPc = .closeSend → ∃ s1, step s (.orch .closeSend) = some s1 ∧
      s1.runPc = .exited ∧ s1.handChan.closed = true ∧ s1.sendChan.closed = true) ∧
    (s.runPc = .exited → ∀ x, step s (.orch x) = none) ∧
    (∀ ch s1, step s ch = some s1 → (∀ x, ch ≠ .orch x) →
      s1.handChan.closed = s.handChan.closed ∧ s1.sendChan.closed = s.sendChan.closed ∧
      closeEvents s1.trace = closeEvents s.trace) := by
  have hi := inv_of_reachable s hr
  refine ⟨hi.closes, hi.stopping, hi.order, ?_, ?_, ?_, ?_⟩
  · intro h
    have h1 : s.handChan.isNil = false := by
      have := hi.handNil; simp [h] at this; exact this
    have h2 : s.handChan.closed = false := by
      have := hi.handClosed; simp [h] at this; exact this
    have h3 : s.sendChan.closed = false := by
      have := hi.sendClosed; simp [h] at this; exact this
    simp [step, runStep, h, Chan.close, h1, h2, h3, Conn.debug, Conn.emit]
    split <;> simp [h3]
  · intro h
    have h1 : s.sendChan.isNil = false := by
      have := hi.sendNil; simp [h] at this; exact this
    have h2 : s.sendChan.closed = false := by
      have := hi.sendClosed; simp [h] at this; exact this
    have h3 : s.handChan.closed = true := by
      have := hi.handClosed; simp [h] at this; exact this
    simp [step, runStep, h, Chan.close, h1, h2, h3, Conn.debug, Conn.emit]
    split <;> simp [h3]
  · intro h x
    cases x <;> simp [step, runStep, h]
  · intro ch s1 h1 hx
    exact (owner_step s s1 ch hi h1).1 hx

/-- Witness for C5: after the orderly run the orchestrator has stopped and the closes
are `handChan`, then `sendChan`. -/
theorem orchestrator_closes_hand_then_send_witness :
    Reachable shutdownState ∧ shutdownState.runPc = .exited ∧
      closeEvents shutdownState.trace = [.closeHand, .closeSend] :=
  ⟨reachable_shutdownState, by rfl,
    (orchestrator_closes_hand_then_send shutdownState reachable_shutdownState).1⟩

/-! ## Cancellation and the selects -/

/-- C6 (counterexample): after `schedCancelUnread` the token is triggered and packet 1
is unread in the receive queue; under the resolution `schedForwardAfterCancel` the
orchestrator still forwards packet 1 into the dispatch queue, the dispatch stage
still has `OnMessage` called for it, and the dispatch stage has not exited. -/
theorem cancellation_does_not_stop_forwarding :
    ∃ s s1, exec demoConn schedCancelUnread = some s ∧ s.cancelled = true ∧
      s.recvChan.buf = [some 1] ∧ forwarded s.trace = [] ∧ dispatched s.trace = [] ∧
      exec s schedForwardAfterCancel = some s1 ∧
      forwarded s1.trace = [some 1] ∧ dispatched s1.trace = [some 1] ∧
      s1.messagePc ≠ .exited := by
  refine ⟨_, _, rfl, by decide, by decide, by decide, by decide, rfl, by decide, by decide,
    by decide⟩

/-- C6 (amended): once the token is triggered, the cancellation case of every `select`
of the orchestrator and of the dispatch stage is ready and does this: the orchestrator
leaves its loop without forwarding, the dispatch stage's outer `select` ends the stage
without starting `OnMessage`, its inner `select` returns to the outer one.  Under every
schedule in which the orchestrator's inner `select` never takes the send case and the
dispatch stage's outer `select` never takes the receive case, the token stays
triggered, nothing more is forwarded and no further `OnMessage` proxy is started. -/
theorem cancellation_cases_stop_forwarding (s : Conn) (hc : s.cancelled = true) :
    (s.runPc = .outer → step s (.orch .done) = some { s with runPc := .closeHand }) ∧
    (∀ p, s.runPc = .inner p →
      step s (.orch .innerDone) = some { s with runPc := .closeHand }) ∧
    (s.messagePc = .outer → step s (.hand .done) =
      some { s.debug [.Debugf "%s: hand goruntinue exit"] with messagePc := .exited }) ∧
    (∀ j, s.messagePc = .inner j →
      step s (.hand .innerDone) = some { s with messagePc := .outer }) ∧
    (∀ sched s1, exec s sched = some s1 →
      Choice.orch .forward ∉ sched → Choice.hand .recv ∉ sched →
      s1.cancelled = true ∧ forwarded s1.trace = forwarded s.trace ∧
        s1.handJobs.length = s.handJobs.length) := by
  refine ⟨?_, ?_, ?_, ?_, ?_⟩
  · intro h
    simp [step, runStep, h, hc]
  · intro p h
    simp [step, runStep, h, hc]
  · intro h
    simp [step, messageStep, h, hc]
  · intro j h
    simp [step, messageStep, h, hc]
  · intro sched s1 h hf hr
    exact cancel_preferring_exec s s1 sched h hc hf hr

/-- Witness for C6 (amended): from the cancelled state with packet 1 unread, the run
in which every `select` takes its cancellation case forwards nothing, starts no
`OnMessage` proxy and ends the dispatch stage. -/
theorem cancellation_cases_stop_forwarding_witness :
    cancelUnreadState.cancelled = true ∧ cancelUnreadState.recvChan.buf = [some 1] ∧
      ∃ s1, exec cancelUnreadState schedCancelCases = some s1 ∧
        forwarded s1.trace = forwarded cancelUnreadState.trace ∧
        s1.handJobs.length = cancelUnreadState.handJobs.length ∧ s1.messagePc = .exited :=
  ⟨by rfl, by rfl, _, rfl,
    ((cancellation_cases_stop_forwarding cancelUnreadState (by rfl)).2.2.2.2
      schedCancelCases _ rfl (by decide) (by decide)).2.1,
    ((cancellation_cases_stop_forwarding cancelUnreadState (by rfl)).2.2.2.2
      schedCancelCases _ rfl (by decide) (by decide)).2.2, by rfl⟩

/-- C7 (counterexample): after `schedCloseBuffered` the orchestrator has closed the
send queue while packet 7 is still buffered; under the resolution
`schedWriteAfterClose` the send stage dequeues packet 7 and its proxy writes it to the
transport. -/
theorem write_after_send_queue_closed :
    ∃ s s1, exec demoConn schedCloseBuffered = some s ∧ s.sendChan.closed = true ∧
      s.cancelled = true ∧ s.sendChan.buf = [some 7] ∧ s.sendJobs = [] ∧
      written s.trace = [] ∧
      exec s schedWriteAfterClose = some s1 ∧
      s1.sendChan.buf = [] ∧ s1.sendJobs.length = 1 ∧ written s1.trace = [some 7] := by
  refine ⟨_, _, rfl, by decide, by decide, by decide, by decide, by decide, rfl, by decide,
    by decide, by decide⟩

/-- C7 (amended): in every reachable state in which the send queue is closed, the
orchestrator has stopped and the token is triggered; the cancellation case of the send
stage's outer `select` is ready and ends the stage with the queue and the proxies
untouched, and the one of its inner `select` ends the stage after cancelling the
proxy's `ctx`; when the queue is also drained the receive case ends the stage as well.
Under every schedule in which the send stage's outer `select` never takes the receive
case, no packet is dequeued and no further serialize-and-write is started. -/
theorem closed_send_queue_cancellation_cases (s : Conn) (hr : Reachable s)
    (hcl : s.sendChan.closed = true) :
    s.runPc = .exited ∧ s.cancelled = true ∧
    (s.sendPc = .outer → step s (.send .done) =
      some { s.debug [.Debugf "%s: send goruntinue exit"] with sendPc := .exited }) ∧
    (∀ j, s.sendPc = .inner j → ∃ s1, step s (.send .innerDone) = some s1 ∧
      s1.sendPc = .exited ∧ s1.sendChan = s.sendChan ∧
      s1.sendJobs.length = s.sendJobs.length) ∧
    (s.sendPc = .outer → s.sendChan.buf = [] → ∃ s1, step s (.send .recv) = some s1 ∧
      s1.sendPc = .exited ∧ s1.sendChan = s.sendChan ∧ s1.sendJobs = s.sendJobs) ∧
    (∀ sched s1, exec s sched = some s1 → Choice.send .recv ∉ sched →
      s1.sendChan.closed = true ∧ s1.sendJobs.length = s.sendJobs.length ∧
        s1.sendChan.buf = s.sendChan.buf) := by
  have hi := inv_of_reachable s hr
  have hex : s.runPc = .exited := hi.sendClosed.1 hcl
  have hc : s.cancelled = true := hi.stopping (Or.inr (Or.inr hex))
  have hn : s.sendChan.isNil = false := by
    have := hi.sendNil; simp [hex] at this; exact this
  refine ⟨hex, hc, ?_, ?_, ?_, ?_⟩
  · intro h
    simp [step, sendStep, h, hc]
  · intro j h
    cases hd : s.isDebug <;> simp [step, sendStep, h, hc, Conn.debug, Conn.emit, hd]
  · intro h hb
    cases hd : s.isDebug <;>
      simp [step, sendStep, h, Chan.tryRecv, hn, hb, hcl, Conn.debug, Conn.emit, hd]
  · intro sched s1 h hnr
    exact closed_queue_exec s s1 sched h hi hcl hnr

/-- Witness for C7 (amended): in the state with the send queue closed and packet 7
buffered, the run in which the send stage takes its cancellation case leaves packet 7
in the queue and starts no proxy. -/
theorem closed_send_queue_cancellation_cases_witness :
    Reachable closeBufferedState ∧ closeBufferedState.sendChan.closed = true ∧
      closeBufferedState.sendChan.buf = [some 7] ∧
      ∃ s1, exec closeBufferedState [.send .done] = some s1 ∧
        s1.sendJobs.length = closeBufferedState.sendJobs.length ∧
        s1.sendChan.buf = closeBufferedState.sendChan.buf ∧ s1.sendPc = .exited :=
  ⟨reachable_closeBufferedState, by rfl, by rfl, _, rfl,
    ((closed_send_queue_cancellation_cases closeBufferedState reachable_closeBufferedState
      (by rfl)).2.2.2.2.2 [.send .done] _ rfl (by decide)).2.1,
    ((closed_send_queue_cancellation_cases closeBufferedState reachable_closeBufferedState
      (by rfl)).2.2.2.2.2 [.send .done] _ rfl (by decide)).2.2, by rfl⟩

/-! ## The receive stage -/

theorem get?_length_append {α : Type} (l : List α) (x : α) :
    (l ++ [x]).get? l.length = some x := by
  simp

theorem set_length_append {α : Type} (l : List α) (x y : α) :
    (l ++ [x]).set l.length y = l ++ [y] := by
  induction l with
  | nil => rfl
  | cons a l ih => simp [ih]

theorem setLast_append {α : Type} (l : List α) (x y : α) :
    setLast (l ++ [x]) y = l ++ [y] := by
  simp [setLast, set_length_append]

theorem getLast?_set_last {α : Type} (l : List α) (i : Nat) (x : α) (h : i + 1 = l.length) :
    (l.set i x).getLast? = some x := by
  have hi : l.length - 1 = i := by omega
  have hlt : i < l.length := by omega
  rw [List.getLast?_eq_getElem?]
  simp [hi, hlt]

/-- One iteration of the receive stage that starts at the top of the loop, decodes `p`
and finds the send case ready hands `p` over: into the buffer, or to the waiting
orchestrator. -/
theorem decode_iteration (t : Conn) (p : Packet) (hl : t.recvPc = .loop)
    (hr : recvSendReady t = true) :
    ∃ s2, exec t (schedDecode t.readers.length p) = some s2 ∧ s2.recvPc = .loop ∧
      decoded s2.trace = decoded t.trace ++ [p] ∧
      (s2.recvChan.buf = t.recvChan.buf ++ [p] ∨
        (s2.recvChan = t.recvChan ∧ s2.runPc = .inner p)) := by
  simp only [recvSendReady, Bool.or_eq_true, Bool.and_eq_true, Bool.not_eq_true',
    decide_eq_true_eq, beq_iff_eq] at hr
  rcases hr with ⟨⟨h1, h2⟩, h3⟩ | ⟨h4, h5⟩
  · cases hd : t.isDebug <;>
      simp [schedDecode, exec, step, recvStep, readPacketStep, hl, get?_length_append,
        set_length_append, setLast_append, Chan.trySend, h1, h2, h3, Conn.emit, Conn.debug, hd,
        decoded]
  · have h6 := h4
    simp only [Chan.handoffReady, Bool.and_eq_true, Bool.not_eq_true', beq_iff_eq,
      List.isEmpty_iff] at h6
    obtain ⟨⟨⟨h1, h2⟩, hb⟩, hcap⟩ := h6
    cases hd : t.isDebug <;>
      simp [schedDecode, exec, step, recvStep, readPacketStep, hl, get?_length_append,
        set_length_append, setLast_append, Chan.trySend, h1, h2, hb, hcap, h4, h5, Conn.emit,
        Conn.debug, hd, decoded]

set_option maxHeartbeats 4000000 in
/-- For every transition from a state in which the stages were started together with
the orchestrator: that stays so; a packet the receive stage holds in its inner `select`
stays held unless the stage sends it on the receive queue (into the buffer or straight
to the waiting orchestrator) or takes the cancellation case with the token triggered;
and the sequence of packets sent on the receive queue only grows, by the held packet,
when the stage takes its send case. -/
theorem held_step (c c1 : Conn) (ch : Choice) (hi : c.runPc = .idle → c.recvPc = .idle)
    (h : step c ch = some c1) :
    (c1.runPc = .idle → c1.recvPc = .idle) ∧
    (∀ p, c.recvPc = .inner p →
      (c1.recvPc = .inner p ∧ decoded c1.trace = decoded c.trace ∧
        ch ≠ .recv .enqueue ∧ ch ≠ .recv .innerDone) ∨
      (ch = .recv .enqueue ∧ c1.recvPc = .loop ∧ decoded c1.trace = decoded c.trace ++ [p] ∧
        (c1.recvChan.buf = c.recvChan.buf ++ [p] ∨
          (c1.recvChan = c.recvChan ∧ c1.runPc = .inner p))) ∨
      (ch = .recv .innerDone ∧ c.cancelled = true ∧ c1.recvPc = .exited ∧
        decoded c1.trace = decoded c.trace)) ∧
    (decoded c1.trace = decoded c.trace ∨
      (ch = .recv .enqueue ∧ ∃ p, c.recvPc = .inner p ∧
        decoded c1.trace = decoded c.trace ++ [p])) := by
  rcases ch with _ | _ | now | ⟨p, br⟩ | ⟨n, e, now⟩ | x | x | x | _ | x | i | x | x <;>
    (try cases x) <;>
    simp only [step, recvStep, readPacketStep, runStep, connJobRun, messageStep, handJobRun,
      sendStep, sendJobStep, recvExit, sendTake, Send, Read, Close_eq, run, UseDebug,
      Conn.emit, Conn.debug, Chan.make] at h <;>
    repeat' split at h
  all_goals (first | (simp [Outcome.toOption] at h; done) | skip)
  all_goals (simp [Outcome.toOption] at h; subst h; refine ⟨?_, ?_, ?_⟩ <;>
    simp_all [decoded, Chan.trySend_sent, Chan.tryRecv_got, Chan.close_some])

/-- The stages are started by `run` together with the orchestrator, so in every
reachable state the receive goroutine exists only when the orchestrator does. -/
theorem started_of_reachable (c : Conn) (h : Reachable c) : c.runPc = .idle → c.recvPc = .idle := by
  obtain ⟨a, o, n, sched, hs⟩ := h
  have key : ∀ (sched : List Choice) (c0 c1 : Conn), (c0.runPc = .idle → c0.recvPc = .idle) →
      exec c0 sched = some c1 → (c1.runPc = .idle → c1.recvPc = .idle) := by
    intro sched
    induction sched with
    | nil => intro c0 c1 h0 h1; simp [exec] at h1; subst h1; exact h0
    | cons ch rest ih =>
      intro c0 c1 h0 h1
      obtain ⟨c2, h2, h3⟩ := (exec_cons c0 c1 ch rest).1 h1
      exact ih c2 c1 (held_step c0 c2 ch h0 h2).1 h3
  exact key sched _ c (by simp [NewConn]) hs

/-- The packets sent on the receive queue only grow along a schedule. -/
theorem decoded_exec (c c1 : Conn) (sched : List Choice)
    (hi : c.runPc = .idle → c.recvPc = .idle) (h : exec c sched = some c1) :
    ∃ more, decoded c1.trace = decoded c.trace ++ more := by
  induction sched generalizing c with
  | nil => simp [exec] at h; subst h; exact ⟨[], by simp⟩
  | cons ch rest ih =>
    obtain ⟨c2, h2, h3⟩ := (exec_cons c c1 ch rest).1 h
    obtain ⟨k1, -, k3⟩ := held_step c c2 ch hi h2
    obtain ⟨more, hm⟩ := ih c2 k1 h3
    rcases k3 with e | ⟨-, p, -, e⟩
    · exact ⟨more, by rw [hm, e]⟩
    · exact ⟨p :: more, by rw [hm, e]; simp⟩

/-- A packet held in the inner `select` is never dropped: along every schedule in which
the stage does not take the cancellation case, the stage still holds it and nothing
was sent meanwhile, or it was the next packet sent on the receive queue. -/
theorem held_exec (c c1 : Conn) (sched : List Choice) (p : Packet)
    (hi : c.runPc = .idle → c.recvPc = .idle) (hp : c.recvPc = .inner p)
    (h : exec c sched = some c1) (hn : Choice.recv .innerDone ∉ sched) :
    (c1.recvPc = .inner p ∧ decoded c1.trace = decoded c.trace ∧
      Choice.recv .enqueue ∉ sched) ∨
    (Choice.recv .enqueue ∈ sched ∧ ∃ more, decoded c1.trace = decoded c.trace ++ p :: more) := by
  induction sched generalizing c with
  | nil => simp [exec] at h; subst h; exact Or.inl ⟨hp, rfl, by simp⟩
  | cons ch rest ih =>
    obtain ⟨c2, h2, h3⟩ := (exec_cons c c1 ch rest).1 h
    simp only [List.mem_cons, not_or] at hn
    obtain ⟨k1, k2, -⟩ := held_step c c2 ch hi h2
    rcases k2 p hp with ⟨a1, a2, a3, -⟩ | ⟨b1, -, b3, -⟩ | ⟨d1, -⟩
    · rcases ih c2 k1 a1 h3 hn.2 with ⟨e1, e2, e3⟩ | ⟨e1, more, e2⟩
      · refine Or.inl ⟨e1, e2.trans a2, ?_⟩
        simp only [List.mem_cons, not_or]
        exact ⟨Ne.symm a3, e3⟩
      · exact Or.inr ⟨List.mem_cons_of_mem _ e1, more, by rw [e2, a2]⟩
    · obtain ⟨more, hm⟩ := decoded_exec c2 c1 rest k1 h3
      exact Or.inr ⟨by simp [b1], more, by rw [hm, b3]; simp⟩
    · exact absurd d1.symm hn.1

/-- The send case `result <- p` can be taken exactly when the stage holds a packet in
its inner `select` and the case is ready; otherwise the stage stays blocked there. -/
theorem enqueue_possible_iff (s : Conn) :
    (step s (.recv .enqueue)).isSome = true ↔
      (∃ p, s.recvPc = .inner p) ∧ recvSendReady s = true := by
  simp only [step, recvStep]
  cases hpc : s.recvPc with
  | inner p =>
    simp only [RecvPc.inner.injEq, exists_eq', true_and]
    cases hn : s.recvChan.isNil <;> cases hc : s.recvChan.closed <;>
      by_cases hl : s.recvChan.buf.length < s.recvChan.cap <;>
      simp [Chan.trySend, recvSendReady, Chan.handoffReady, hn, hc, hl]
  | _ => simp

theorem reachable_recvHoldingState : Reachable recvHoldingState :=
  ⟨"peer", demoOption, 1000, schedRecvHolding, by rfl⟩

/-- C8: the goroutine of `recv` leaves its loop only by a cancellation case, taken
with the token triggered.  In an iteration where the deadline fires, `OnTimeOut` is
called once with `RecvTimeOut`, the receive queue is untouched and the loop goes on.
In an iteration where the decode fails, the error is logged, the reader closes its
channel, the stage receives `ok = false`, the receive queue is untouched and the loop
goes on.  After either, a packet decoded in the next iteration is sent on the receive
queue as soon as the send case is ready (into the buffer when there is room).  A packet
the stage has received from its reader is held in the inner `select`: the send case
can be taken exactly when it is ready, no transition sends anything else on the
receive queue, and under every schedule the held packet is either still held, or was
the next packet sent on the queue, or the stage took its cancellation case; it is
never dropped. -/
theorem recv_loop_survives_timeout_and_error (s : Conn) :
    (∀ ch s1, s.recvPc ≠ .exited → step s ch = some s1 → s1.recvPc = .exited →
      s.cancelled = true ∧ (ch = .recv .done ∨ ch = .recv .innerDone)) ∧
    (s.recvPc = .select → step s (.recv .timeOut) =
      some { s with trace := s.trace ++ [.OnTimeOut .RecvTimeOut], recvPc := .loop }) ∧
    (∀ i, s.recvPc = .select → s.readers.get? i = some .decoding → i + 1 = s.readers.length →
      ∃ s1, step s (.reader (.decodeErr i)) = some s1 ∧ s1.recvChan = s.recvChan ∧
        s1.recvPc = .select ∧ s1.trace = s.trace ++ [.Errorf "err"] ∧
        step s1 (.recv .fromReader) = some { s1 with recvPc := .loop }) ∧
    (∀ p, s.recvPc = .select → recvSendReady s = true →
      ∃ s2, exec s (.recv .timeOut :: schedDecode s.readers.length p) = some s2 ∧
        s2.recvPc = .loop ∧ decoded s2.trace = decoded s.trace ++ [p] ∧
        (s2.recvChan.buf = s.recvChan.buf ++ [p] ∨
          (s2.recvChan = s.recvChan ∧ s2.runPc = .inner p))) ∧
    (∀ i p, s.recvPc = .select → s.readers.get? i = some .decoding →
      i + 1 = s.readers.length → recvSendReady s = true →
      ∃ s2, exec s (.reader (.decodeErr i) :: .recv .fromReader ::
          schedDecode s.readers.length p) = some s2 ∧
        s2.recvPc = .loop ∧ decoded s2.trace = decoded s.trace ++ [p] ∧
        (s2.recvChan.buf = s.recvChan.buf ++ [p] ∨
          (s2.recvChan = s.recvChan ∧ s2.runPc = .inner p))) ∧
    (∀ p, s.recvPc = .select → s.readers.getLast? = some (.offering p) →
      step s (.recv .fromReader) =
        some { s with readers := setLast s.readers .closed, recvPc := .inner p }) ∧
    ((step s (.recv .enqueue)).isSome = true ↔
      (∃ p, s.recvPc = .inner p) ∧ recvSendReady s = true) ∧
    (∀ ch s1, Reachable s → step s ch = some s1 →
      decoded s1.trace = decoded s.trace ∨
      (ch = .recv .enqueue ∧ ∃ p, s.recvPc = .inner p ∧
        decoded s1.trace = decoded s.trace ++ [p])) ∧
    (∀ p ch s1, Reachable s → s.recvPc = .inner p → step s ch = some s1 →
      (s1.recvPc = .inner p ∧ decoded s1.trace = decoded s.trace ∧
        ch ≠ .recv .enqueue ∧ ch ≠ .recv .innerDone) ∨
      (ch = .recv .enqueue ∧ s1.recvPc = .loop ∧ decoded s1.trace = decoded s.trace ++ [p] ∧
        (s1.recvChan.buf = s.recvChan.buf ++ [p] ∨
          (s1.recvChan = s.recvChan ∧ s1.runPc = .inner p))) ∨
      (ch = .recv .innerDone ∧ s.cancelled = true ∧ s1.recvPc = .exited ∧
        decoded s1.trace = decoded s.trace)) ∧
    (∀ p sched s1, Reachable s → s.recvPc = .inner p → exec s sched = some s1 →
      Choice.recv .innerDone ∉ sched →
      (s1.recvPc = .inner p ∧ decoded s1.trace = decoded s.trace ∧
        Choice.recv .enqueue ∉ sched) ∨
      (Choice.recv .enqueue ∈ sched ∧
        ∃ more, decoded s1.trace = decoded s.trace ++ p :: more)) := by
  refine ⟨?_, ?_, ?_, ?_, ?_, ?_, enqueue_possible_iff s, ?_, ?_, ?_⟩
  · intro ch s1 hne h hex
    exact (frame_step s s1 ch h).2.2.2.2 hne hex
  · intro hs
    simp [step, recvStep, hs, Conn.emit]
  · intro i hs hg hlast
    have hg1 : s.readers[i]? = some .decoding := by simpa using hg
    refine ⟨{ s with trace := s.trace ++ [.Errorf "err"], readers := s.readers.set i .closed },
      by simp [step, readPacketStep, hg1, Conn.emit], rfl, hs, rfl, ?_⟩
    simp [step, recvStep, hs, getLast?_set_last _ _ _ hlast]
  · intro p hs hr
    obtain ⟨s2, e1, e2, e3, e4⟩ := decode_iteration
      { s with trace := s.trace ++ [.OnTimeOut .RecvTimeOut], recvPc := .loop } p rfl hr
    refine ⟨s2, ?_, e2, ?_, e4⟩
    · rw [exec_cons]
      exact ⟨_, by simp [step, recvStep, hs, Conn.emit], e1⟩
    · simpa [decoded] using e3
  · intro i p hs hg hlast hr
    have hg1 : s.readers[i]? = some .decoding := by simpa using hg
    obtain ⟨s2, e1, e2, e3, e4⟩ := decode_iteration
      { s with trace := s.trace ++ [.Errorf "err"], readers := s.readers.set i .closed,
               recvPc := .loop } p rfl hr
    refine ⟨s2, ?_, e2, ?_, e4⟩
    · rw [exec_cons]
      refine ⟨{ s with trace := s.trace ++ [.Errorf "err"], readers := s.readers.set i .closed },
        by simp [step, readPacketStep, hg1, Conn.emit], ?_⟩
      rw [exec_cons]
      refine ⟨_, by simp [step, recvStep, hs, getLast?_set_last _ _ _ hlast]; rfl, ?_⟩
      simpa using e1
    · simpa [decoded] using e3
  · intro p hs hg
    simp [step, recvStep, hs, hg]
  · intro ch s1 hr h
    exact (held_step s s1 ch (started_of_reachable s hr) h).2.2
  · intro p ch s1 hr hp h
    exact (held_step s s1 ch (started_of_reachable s hr) h).2.1 p hp
  · intro p sched s1 hr hp h hn
    exact held_exec s s1 sched p (started_of_reachable s hr) hp h hn

/-- Witness for C8: in the state where the receive stage waits for its first decode,
a timeout followed by a successful decode of packet 5 enqueues packet 5, and so does a
failed decode followed by a successful one.  In the state where the queue is full and
the stage holds packet 2, the send case cannot be taken; once the orchestrator has
taken packet 1 from the queue, packet 2 is the next packet sent on it. -/
theorem recv_loop_survives_timeout_and_error_witness :
    recvWaitingState.recvPc = .select ∧ recvWaitingState.readers = [.decoding] ∧
      recvSendReady recvWaitingState = true ∧
      (∃ s2, exec recvWaitingState (.recv .timeOut :: schedDecode 1 (some 5)) = some s2 ∧
        s2.recvPc = .loop ∧ decoded s2.trace = [some 5]) ∧
      (∃ s2, exec recvWaitingState (.reader (.decodeErr 0) :: .recv .fromReader ::
          schedDecode 1 (some 5)) = some s2 ∧
        s2.recvPc = .loop ∧ decoded s2.trace = [some 5]) ∧
      Reachable recvHoldingState ∧ recvHoldingState.recvPc = .inner (some 2) ∧
      recvHoldingState.recvChan.buf = [some 1] ∧
      step recvHoldingState (.recv .enqueue) = none ∧
      (∃ s2 more, exec recvHoldingState [.orch .recv, .recv .enqueue] = some s2 ∧
        decoded s2.trace = decoded recvHoldingState.trace ++ some 2 :: more) := by
  have h := recv_loop_survives_timeout_and_error recvWaitingState
  have k := recv_loop_survives_timeout_and_error recvHoldingState
  refine ⟨by rfl, by rfl, by rfl, ?_, ?_, reachable_recvHoldingState, by rfl, by rfl, ?_, ?_⟩
  · obtain ⟨s2, e1, e2, e3, -⟩ := h.2.2.2.1 (some 5) (by rfl) (by rfl)
    exact ⟨s2, e1, e2, e3⟩
  · obtain ⟨s2, e1, e2, e3, -⟩ := h.2.2.2.2.1 0 (some 5) (by rfl) (by rfl) (by rfl) (by rfl)
    exact ⟨s2, e1, e2, e3⟩
  · have hno : ¬ ((step recvHoldingState (.recv .enqueue)).isSome = true) := by
      rw [k.2.2.2.2.2.2.1]
      rintro ⟨-, hr⟩
      exact absurd hr (by decide)
    cases hst : step recvHoldingState (.recv .enqueue) with
    | none => rfl
    | some x => rw [hst] at hno; simp at hno
  · obtain ⟨s2, hs2⟩ : ∃ s2, exec recvHoldingState [.orch .recv, .recv .enqueue] = some s2 :=
      ⟨_, rfl⟩
    rcases k.2.2.2.2.2.2.2.2.2 (some 2) _ s2 reachable_recvHoldingState (by rfl) hs2
      (by decide) with ⟨-, -, e3⟩ | ⟨-, more, e⟩
    · exact absurd (by simp) e3
    · exact ⟨s2, more, hs2, e⟩

end tcpserver

namespace bulkruntool

/-! ## The dispatcher's deferred closes -/

/-- What holds in every reachable state of the pool: `funcs` is a made channel, the
dispatcher leaves its loop only once `funcs` has been closed, and it never gets past
its deferred `close(funcs)`. -/
structure PoolInv (s : Pool) : Prop where
  made : s.funcs.isNil = false
  left : (s.pc = .closeCh ∨ s.pc = .closeFuncs) → s.funcs.closed = true
  never : s.pc ≠ .exited

theorem poolInv_step (s s1 : Pool) (ch : PoolChoice) (hi : PoolInv s)
    (h : step s ch = some s1) : PoolInv s1 := by
  obtain ⟨h1, h2, h3⟩ := hi
  cases ch <;> simp only [step, spawn] at h <;> repeat' split at h
  all_goals (first | (simp at h; done) | skip)
  all_goals (simp at h; subst h; constructor <;>
    simp_all [Chan.trySend_sent, Chan.tryRecv_got, Chan.close_some])

theorem poolInv_exec (s s1 : Pool) (sched : List PoolChoice) (hi : PoolInv s)
    (h : exec s sched = some s1) : PoolInv s1 := by
  induction sched generalizing s with
  | nil => simp [exec] at h; subst h; exact hi
  | cons ch rest ih =>
    simp only [exec] at h
    cases hs : step s ch with
    | none => simp [hs] at h
    | some s2 =>
      simp [hs] at h
      exact ih s2 (poolInv_step s s2 ch hi hs) h

/-- In every reachable state the dispatcher has not returned, and when it stands at
its deferred `close(funcs)` that statement panics: `funcs` is already closed. -/
theorem deferred_close_of_funcs_panics (s : Pool) (hr : Reachable s) :
    s.pc ≠ .exited ∧
    (s.pc = .closeFuncs → step s .dispatcher =
      some { s with pc := .panicked, trace := s.trace ++ [.panicCloseOfClosedChannel] }) := by
  obtain ⟨m, n, sched, hs⟩ := hr
  have hi : PoolInv s := poolInv_exec _ _ sched
    (by constructor <;> simp [CreateBulkRunFuncChannel, Chan.make]) hs
  refine ⟨hi.never, ?_⟩
  intro h
  have hc := hi.left (Or.inr h)
  simp [step, h, Chan.close, hc]

/-- C10 (evaluation at the failing input): with `maxTaskCount = 1`, the caller closes
`funcs` without sending anything; the dispatcher reads `ok = false`, returns, closes
`ch`, and its deferred `close(funcs)` hits the channel the caller has already closed:
a second close of `funcs`, which panics. -/
theorem dispatcher_closes_closed_funcs :
    ∃ s1 s2, exec (CreateBulkRunFuncChannel 1 0) [.callerClose, .dispatcher, .dispatcher] =
        some s1 ∧
      s1.pc = .closeFuncs ∧ s1.funcs.closed = true ∧ s1.funcs.close = none ∧
      step s1 .dispatcher = some s2 ∧ s2.pc = .panicked ∧
      s2.trace = [.closeFuncsByCaller, .closeCh, .panicCloseOfClosedChannel] := by
  refine ⟨_, _, rfl, by decide, by decide, by decide, rfl, by decide, by decide⟩

end bulkruntool

